import Mathlib

/-!
Verification of the ccx account-lifecycle core: the Account entity, the
encrypted credential vault, the bounded switch-history ledger, and the
add/switch/remove orchestrators, embedded shallowly from the Go source.

Stores (account repository, credential store, config manager, history
repository) are embedded as the repository's own test doubles: in-memory
maps with injectable error flags, exactly as defined in the usecases test
files.  Randomness (account-id generation, AES-GCM nonces), the current
time, and the AES block cipher itself are passed in as explicit
parameters, making the Go code's nondeterminism explicit.
-/

namespace Ccx

/-! ## Domain: validation (account.go) -/

/-- Character class of the local part of `emailRegex`:
`[a-zA-Z0-9._%+-]`. -/
def isEmailLocalChar (c : Char) : Bool :=
  c.isAlpha || c.isDigit || c = '.' || c = '_' || c = '%' || c = '+' || c = '-'

/-- Character class of the domain part of `emailRegex`: `[a-zA-Z0-9.-]`. -/
def isEmailDomainChar (c : Char) : Bool :=
  c.isAlpha || c.isDigit || c = '.' || c = '-'

/-- Matching of the suffix of `emailRegex` after the `@`:
`[a-zA-Z0-9.-]+\.[a-zA-Z]{2,}$`, expressed as the existence of a split at
a literal dot. -/
def emailDomainMatches (cs : List Char) : Bool :=
  (List.range cs.length).any fun j =>
    cs.get? j = some '.' && 1 ≤ j && (cs.take j).all isEmailDomainChar &&
      2 ≤ (cs.drop (j + 1)).length && (cs.drop (j + 1)).all Char.isAlpha

/-- Matching of `emailRegex = ^[a-zA-Z0-9._%+-]+@[a-zA-Z0-9.-]+\.[a-zA-Z]{2,}$`,
expressed as the existence of a split at the `@`. -/
def emailRegexMatches (s : String) : Bool :=
  let cs := s.toList
  (List.range cs.length).any fun i =>
    cs.get? i = some '@' && 1 ≤ i && (cs.take i).all isEmailLocalChar &&
      emailDomainMatches (cs.drop (i + 1))

/-- Embedding of `domain.ValidateEmail`; `some msg` is the returned error. -/
def ValidateEmail (email : String) : Option String :=
  if email = "" then some "email cannot be empty"
  else if !emailRegexMatches email then some "invalid email format"
  else none

/-- Character class of `aliasRegex`: `[a-zA-Z0-9_-]`. -/
def isAliasChar (c : Char) : Bool :=
  c.isAlpha || c.isDigit || c = '_' || c = '-'

/-- Embedding of `domain.validateAlias`. -/
def validateAlias (al : String) : Option String :=
  if al.toList.any (· = ' ') then some "alias cannot contain spaces"
  else if !(al.toList ≠ [] && al.toList.all isAliasChar) then
    some "alias can only contain letters, numbers, hyphens, and underscores"
  else none

/-! ## Domain: Account entity (account.go) -/

/-- Embedding of `domain.Account`.  Timestamps are abstract `Nat` ticks. -/
structure Account where
  id : String
  email : String
  aliasName : String
  uuid : String
  createdAt : Nat
  lastUsed : Nat
deriving Repr, DecidableEq

/-- Embedding of `domain.NewAccount`.  The generated id (Go
`GenerateAccountID`, a random token) and `time.Now()` are passed in as
`genId` and `now`. -/
def NewAccount (email al uuid : String) (genId : String) (now : Nat) :
    Except String Account :=
  match ValidateEmail email with
  | some e => Except.error e
  | none =>
    if uuid = "" then Except.error "uuid cannot be empty"
    else
      match (if al ≠ "" then validateAlias al else none) with
      | some e => Except.error e
      | none => Except.ok ⟨genId, email, al, uuid, now, now⟩

/-! ## Domain: switch-history ledger (history.go) -/

/-- Embedding of `domain.SwitchEntry`; the timestamp is an abstract tick. -/
structure SwitchEntry where
  fromEmail : String
  toEmail : String
  timestamp : Nat
deriving Repr, DecidableEq

/-- Embedding of `domain.NewSwitchEntry` (`time.Now()` passed as `now`). -/
def NewSwitchEntry (fromE toE : String) (now : Nat) : Except String SwitchEntry :=
  if fromE = "" then Except.error "from email cannot be empty"
  else if toE = "" then Except.error "to email cannot be empty"
  else if fromE = toE then Except.error "cannot switch to the same account"
  else Except.ok ⟨fromE, toE, now⟩

/-- Embedding of `domain.History`. -/
structure History where
  entries : List SwitchEntry
  maxEntries : Nat
deriving Repr, DecidableEq

/-- Embedding of `domain.NewHistory`: a non-positive capacity coerces to
the default of 10. -/
def NewHistory (maxEntries : Int) : History :=
  if maxEntries ≤ 0 then ⟨[], 10⟩ else ⟨[], maxEntries.toNat⟩

/-- Embedding of `(*History).AddEntry`: a nil entry is ignored; otherwise
the entry is prepended and the list is truncated to `maxEntries` when it
overflows. -/
def AddEntry (h : History) (entry : Option SwitchEntry) : History :=
  match entry with
  | none => h
  | some e =>
    let es := e :: h.entries
    if es.length > h.maxEntries then { h with entries := es.take h.maxEntries }
    else { h with entries := es }

/-- Embedding of `(*History).GetLastSwitch`. -/
def GetLastSwitch (h : History) : Option SwitchEntry :=
  match h.entries with
  | [] => none
  | e :: _ => some e

/-! ## Domain: credential vault (credentials.go)

The Go code encrypts with AES-GCM from the standard library
(`crypto/aes`, `cipher.NewGCM`).  The standard library is not part of
this repository, so GCM is embedded structurally (counter mode plus a
GHASH tag over GF(2^128), nonce‖ciphertext‖tag layout, fail-closed
opening) over an abstract keyed block cipher `E`, and the SHA-256 key
derivation of `deriveKey` is an abstract `kdf`; both are threaded as
explicit parameters.  Bytes are `Nat`s below 256. -/

/-- Keyed 16-byte block cipher, abstracting `crypto/aes`. -/
def BlockCipher : Type := List Nat → List Nat → List Nat

/-- Big-endian 4-byte encoding of a 32-bit counter. -/
def be32 (n : Nat) : List Nat :=
  [n / 2 ^ 24 % 256, n / 2 ^ 16 % 256, n / 2 ^ 8 % 256, n % 256]

/-- Counter block `nonce ‖ be32 i` used by GCM with a 12-byte nonce. -/
def counterBlock (nonce : List Nat) (i : Nat) : List Nat :=
  nonce ++ be32 i

/-- Keystream blocks for counters `i, i+1, …, i+n-1`. -/
def ksFrom (E : BlockCipher) (key nonce : List Nat) (i n : Nat) : List Nat :=
  match n with
  | 0 => []
  | n + 1 => E key (counterBlock nonce i) ++ ksFrom E key nonce (i + 1) n

/-- GCM payload keystream: counters start at 2 (counter 1 masks the tag). -/
def gcmKeystream (E : BlockCipher) (key nonce : List Nat) (n : Nat) : List Nat :=
  ksFrom E key nonce 2 n

/-- Big-endian interpretation of a byte string as a natural number. -/
def bytesToNat (bs : List Nat) : Nat :=
  bs.foldl (fun acc b => acc * 256 + b % 256) 0

/-- Big-endian 16-byte encoding of a 128-bit value. -/
def natToBytes16 (n : Nat) : List Nat :=
  (List.range 16).map fun i => n / 256 ^ (15 - i) % 256

/-- Reduction polynomial of GF(2^128) in GCM's bit order. -/
def gf128R : Nat := 0xe1 * 2 ^ 120

/-- Multiplication in GF(2^128) as specified for GHASH: iterate over the
bits of `x` from the most significant down, conditionally accumulating a
copy of `y` that is shifted right and reduced each step. -/
def gf128Mul (x y : Nat) : Nat :=
  (List.range 128).foldl
    (fun zv i =>
      let z := if x.testBit (127 - i) then zv.1 ^^^ zv.2 else zv.1
      let v := if zv.2 % 2 = 1 then zv.2 / 2 ^^^ gf128R else zv.2 / 2
      (z, v))
    (0, y) |>.1

/-- Number of 16-byte blocks covering `len` bytes. -/
def blocksFor (len : Nat) : Nat := (len + 15) / 16

/-- Splitting of a byte string into `n` 16-byte blocks, zero-padding the
last; driven by the block count so that it is structurally recursive. -/
def toBlocksN (bs : List Nat) (n : Nat) : List (List Nat) :=
  match n with
  | 0 => []
  | n + 1 =>
    let b := bs.take 16
    (b ++ List.replicate (16 - b.length) 0) :: toBlocksN (bs.drop 16) n

/-- Splitting of a byte string into 16-byte blocks, zero-padding the last. -/
def toBlocks (bs : List Nat) : List (List Nat) :=
  toBlocksN bs (blocksFor bs.length)

/-- GHASH over the hash key `h`. -/
def ghash (h : Nat) (blocks : List (List Nat)) : Nat :=
  blocks.foldl (fun y b => gf128Mul (y ^^^ bytesToNat b) h) 0

/-- Big-endian 8-byte encoding of a bit length, as in GHASH's final block. -/
def be64 (n : Nat) : List Nat :=
  (List.range 8).map fun i => n / 256 ^ (7 - i) % 256

/-- GCM authentication tag over empty associated data: GHASH of the
padded ciphertext and the length block, masked with `E key J0`. -/
def gcmTag (E : BlockCipher) (key nonce c : List Nat) : List Nat :=
  let h := bytesToNat (E key (List.replicate 16 0))
  let s := ghash h (toBlocks c ++ [be64 0 ++ be64 (8 * c.length)])
  List.zipWith Nat.xor (natToBytes16 s) (E key (counterBlock nonce 1))

/-- GCM seal with `dst = nonce` as in the Go `encrypt`: the output is
`nonce ‖ ciphertext ‖ tag`. -/
def gcmSeal (E : BlockCipher) (key nonce p : List Nat) : List Nat :=
  let c := List.zipWith Nat.xor p (gcmKeystream E key nonce (blocksFor p.length))
  nonce ++ c ++ gcmTag E key nonce c

/-- GCM open: fail closed unless the recomputed tag matches. -/
def gcmOpen (E : BlockCipher) (key nonce rest : List Nat) : Except String (List Nat) :=
  if rest.length < 16 then Except.error "cipher: message authentication failed"
  else
    let c := rest.take (rest.length - 16)
    let tag := rest.drop (rest.length - 16)
    if tag = gcmTag E key nonce c then
      Except.ok (List.zipWith Nat.xor c (gcmKeystream E key nonce (blocksFor c.length)))
    else Except.error "cipher: message authentication failed"

/-- Validity of an AES key length (`crypto/aes` accepts 16, 24 or 32). -/
def aesKeySizeOk (key : List Nat) : Bool :=
  key.length = 16 || key.length = 24 || key.length = 32

/-- Embedding of the package-level `encrypt`: the fresh random nonce that
Go draws from `crypto/rand` is the explicit `nonce` parameter. -/
def encrypt (E : BlockCipher) (plaintext key nonce : List Nat) :
    Except String (List Nat) :=
  if !aesKeySizeOk key then Except.error "crypto/aes: invalid key size"
  else Except.ok (gcmSeal E key nonce plaintext)

/-- Embedding of the package-level `decrypt`, including its explicit
`ciphertext too short` guard before GCM opening. -/
def decrypt (E : BlockCipher) (ciphertext key : List Nat) :
    Except String (List Nat) :=
  if !aesKeySizeOk key then Except.error "crypto/aes: invalid key size"
  else if ciphertext.length < 12 then Except.error "ciphertext too short"
  else gcmOpen E key (ciphertext.take 12) (ciphertext.drop 12)

/-- Embedding of `domain.Credentials`. -/
structure Credentials where
  accountID : String
  encryptedData : List Nat
  encryptionKey : List Nat
deriving Repr, DecidableEq

/-- Key-derivation function abstracting `deriveKey`'s SHA-256 over the
domain-separation prefix and the account id. -/
def Kdf : Type := String → List Nat

/-- Embedding of `domain.NewCredentials`. -/
def NewCredentials (E : BlockCipher) (kdf : Kdf) (accountID : String)
    (data nonce : List Nat) : Except String Credentials :=
  if accountID = "" then Except.error "account ID cannot be empty"
  else if data.length = 0 then Except.error "credentials data cannot be empty"
  else
    let key := kdf accountID
    match encrypt E data key nonce with
    | Except.error e => Except.error e
    | Except.ok encryptedData => Except.ok ⟨accountID, encryptedData, key⟩

/-- Embedding of `(*Credentials).Decrypt`. -/
def CredentialsDecrypt (E : BlockCipher) (c : Credentials) :
    Except String (List Nat) :=
  decrypt E c.encryptedData c.encryptionKey

/-! ## Stores: the repository's test doubles

The orchestrators call four injected ports.  They are embedded as the
mock implementations the repository itself tests them against
(`mockAccountRepository`, `mockCredentialStore`, `mockConfigManager`,
`mockHistoryRepository`, and the extended mocks adding `deleteErr`):
in-memory maps plus injectable error flags, all collected in one `World`
record that the operations thread through explicitly. -/

structure World where
  accounts : List Account
  accSaveErr : Bool
  accFindErr : Bool
  accDeleteErr : Bool
  creds : List (String × Credentials)
  credStoreErr : Bool
  credRetrieveErr : Bool
  credDeleteErr : Bool
  current : Option Account
  configGetErr : Bool
  configSetErr : Bool
  storedHistory : History
  histLoadErr : Bool
  histSaveErr : Bool
  histSaveCalls : Nat
deriving Repr, DecidableEq

/-- Insertion into the account map: replace by id, or append. -/
def upsertAccount (l : List Account) (a : Account) : List Account :=
  if l.any (fun b => b.id = a.id) then
    l.map (fun b => if b.id = a.id then a else b)
  else l ++ [a]

/-- Insertion into the credential map: replace by account id, or append. -/
def upsertCred (l : List (String × Credentials)) (id : String)
    (c : Credentials) : List (String × Credentials) :=
  if l.any (fun p => p.1 = id) then
    l.map (fun p => if p.1 = id then (id, c) else p)
  else l ++ [(id, c)]

/-- Lookup in the credential map. -/
def lookupCred (l : List (String × Credentials)) (id : String) :
    Option Credentials :=
  (l.find? (fun p => p.1 = id)).map (fun p => p.2)

/-- Mock `AccountRepository.Save`. -/
def repoSave (w : World) (a : Account) : Except String Unit × World :=
  if w.accSaveErr then (Except.error "save error", w)
  else (Except.ok (), { w with accounts := upsertAccount w.accounts a })

/-- Mock `AccountRepository.FindByID`. -/
def repoFindByID (w : World) (id : String) : Except String Account :=
  if w.accFindErr then Except.error "find error"
  else
    match w.accounts.find? (fun a => a.id = id) with
    | some a => Except.ok a
    | none => Except.error "account not found"

/-- Mock `AccountRepository.FindByEmail`. -/
def repoFindByEmail (w : World) (email : String) : Except String Account :=
  if w.accFindErr then Except.error "find error"
  else
    match w.accounts.find? (fun a => a.email = email) with
    | some a => Except.ok a
    | none => Except.error "account not found"

/-- Mock `AccountRepository.FindByAlias`. -/
def repoFindByAlias (w : World) (al : String) : Except String Account :=
  if w.accFindErr then Except.error "find error"
  else
    match w.accounts.find? (fun a => a.aliasName = al) with
    | some a => Except.ok a
    | none => Except.error "account not found"

/-- Mock `AccountRepository.List`. -/
def repoList (w : World) : Except String (List Account) :=
  if w.accFindErr then Except.error "find error" else Except.ok w.accounts

/-- Mock `AccountRepository.Delete` (extended mock with `deleteErr`). -/
def repoDelete (w : World) (id : String) : Except String Unit × World :=
  if w.accDeleteErr then (Except.error "delete error", w)
  else (Except.ok (), { w with accounts := w.accounts.filter (fun a => a.id ≠ id) })

/-- Mock `CredentialStore.Store`. -/
def credStore (w : World) (c : Credentials) : Except String Unit × World :=
  if w.credStoreErr then (Except.error "store error", w)
  else (Except.ok (), { w with creds := upsertCred w.creds c.accountID c })

/-- Mock `CredentialStore.Retrieve`. -/
def credRetrieve (w : World) (id : String) : Except String Credentials :=
  if w.credRetrieveErr then Except.error "retrieve error"
  else
    match lookupCred w.creds id with
    | some c => Except.ok c
    | none => Except.error "credentials not found"

/-- Mock `CredentialStore.Delete` (extended mock with `deleteErr`). -/
def credDelete (w : World) (id : String) : Except String Unit × World :=
  if w.credDeleteErr then (Except.error "delete error", w)
  else (Except.ok (), { w with creds := w.creds.filter (fun p => p.1 ≠ id) })

/-- Mock `ConfigManager.GetCurrentAccount`. -/
def configGetCurrent (w : World) : Except String (Option Account) :=
  if w.configGetErr then Except.error "get error" else Except.ok w.current

/-- Mock `ConfigManager.SetCurrentAccount`. -/
def configSetCurrent (w : World) (a : Option Account) : Except String Unit × World :=
  if w.configSetErr then (Except.error "set error", w)
  else (Except.ok (), { w with current := a })

/-- Mock `HistoryRepository.LoadHistory`. -/
def histLoad (w : World) : Except String History :=
  if w.histLoadErr then Except.error "load error" else Except.ok w.storedHistory

/-- Mock `HistoryRepository.SaveHistory`: the call counter is incremented
before the error check, as in the mock. -/
def histSave (w : World) (h : History) : Except String Unit × World :=
  let w1 := { w with histSaveCalls := w.histSaveCalls + 1 }
  if w1.histSaveErr then (Except.error "history save error", w1)
  else (Except.ok (), { w1 with storedHistory := h })

/-! ## Usecase DTOs -/

/-- Embedding of `usecases.AccountInfo`. -/
structure AccountInfo where
  id : String
  email : String
  aliasName : String
  uuid : String
  createdAt : Nat
deriving Repr, DecidableEq

/-- Embedding of `accountToInfo`. -/
def accountToInfo (a : Account) : AccountInfo :=
  ⟨a.id, a.email, a.aliasName, a.uuid, a.createdAt⟩

/-! ## Add orchestrator (add_account.go)

Caller-side context cancellation is the explicit `cancelled : Bool`
argument of each `Execute`; the mock stores ignore it, as the Go mocks
ignore their `context.Context` parameter. -/

/-- Embedding of `usecases.AddAccountInput`. -/
structure AddAccountInput where
  email : String
  aliasName : String
  credentials : List Nat
deriving Repr, DecidableEq

/-- Bytes of a string, for the placeholder credential payload. -/
def strBytes (s : String) : List Nat := s.toList.map Char.toNat

/-- Placeholder payload `\x7b"account_id": "<uuid>", "session_key": "placeholder"\x7d`
synthesized when no credential bytes are supplied on the config path. -/
def placeholderPayload (uuid : String) : List Nat :=
  strBytes ("\x7b\"account_id\": \"" ++ uuid ++ "\", \"session_key\": \"placeholder\"\x7d")

/-- Embedding of `strings.ReplaceAll(email, "@", "-")` (single-character
pattern and replacement, hence a character map). -/
def replaceAtSign (s : String) : String :=
  String.mk (s.toList.map (fun c => if c = '@' then '-' else c))

/-- Embedding of `determineAccountDetails`: resolves
`(email, uuid, credentialData)` from explicit input or from the config
manager. -/
def determineAccountDetails (w : World) (input : AddAccountInput) :
    Except String (String × String × List Nat) :=
  if input.email ≠ "" then
    if input.credentials.length = 0 then
      Except.error "credentials must be provided when email is specified explicitly"
    else
      Except.ok (input.email, "explicit-" ++ replaceAtSign input.email, input.credentials)
  else
    match configGetCurrent w with
    | Except.error e => Except.error ("failed to get current Claude account: " ++ e)
    | Except.ok none =>
      Except.error "no current Claude account found - please configure Claude or provide explicit email"
    | Except.ok (some currentAccount) =>
      let credentialData :=
        if input.credentials.length > 0 then input.credentials
        else placeholderPayload currentAccount.uuid
      Except.ok (currentAccount.email, currentAccount.uuid, credentialData)

/-- Embedding of `checkAccountExists`: `some msg` is the duplicate-account
error; any `FindByEmail` error is treated as "does not exist". -/
def checkAccountExists (w : World) (email : String) : Option String :=
  match repoFindByEmail w email with
  | Except.ok _ => some ("account with email " ++ email ++ " already exists")
  | Except.error _ => none

/-- Embedding of `generateAlias`: the explicit alias, or the part of the
email before the first `@` (Go `strings.Split(email, "@")[0]`). -/
def generateAlias (inputAlias email : String) : String :=
  if inputAlias ≠ "" then inputAlias
  else String.mk (email.toList.takeWhile (fun c => c ≠ '@'))

/-- Embedding of `createAndSaveAccount`: credentials are stored first,
then the account; on account-save failure the just-stored credentials are
deleted (the delete error itself is discarded). -/
def createAndSaveAccount (E : BlockCipher) (kdf : Kdf) (nonce : List Nat)
    (genId : String) (now : Nat) (w : World)
    (email al uuid : String) (credentialData : List Nat) :
    Except String Unit × World :=
  match NewAccount email al uuid genId now with
  | Except.error e => (Except.error ("failed to create account: " ++ e), w)
  | Except.ok account =>
    match NewCredentials E kdf account.id credentialData nonce with
    | Except.error e => (Except.error ("failed to create credentials: " ++ e), w)
    | Except.ok credentials =>
      match credStore w credentials with
      | (Except.error e, w1) => (Except.error ("failed to store credentials: " ++ e), w1)
      | (Except.ok _, w1) =>
        match repoSave w1 account with
        | (Except.error e, w2) =>
          ((Except.error ("failed to save account: " ++ e) : Except String Unit),
            (credDelete w2 account.id).2)
        | (Except.ok _, w2) => (Except.ok (), w2)

/-- Embedding of `(*AddAccountService).Execute`.  The Go method receives a
context but never checks it; `_cancelled` is therefore unused. -/
def addExecute (E : BlockCipher) (kdf : Kdf) (nonce : List Nat)
    (genId : String) (now : Nat) (_cancelled : Bool) (w : World)
    (input : AddAccountInput) : Except String Unit × World :=
  match determineAccountDetails w input with
  | Except.error e => (Except.error e, w)
  | Except.ok (email, uuid, credentialData) =>
    match checkAccountExists w email with
    | some e => (Except.error e, w)
    | none =>
      let al := generateAlias input.aliasName email
      createAndSaveAccount E kdf nonce genId now w email al uuid credentialData

/-! ## Switch orchestrator (switch_account.go) -/

/-- Embedding of `usecases.SwitchAccountInput`; `index` is a Go `int`. -/
structure SwitchAccountInput where
  accountID : String
  email : String
  aliasName : String
  index : Int
  previous : Bool
deriving Repr, DecidableEq

/-- Embedding of `usecases.SwitchAccountResult`. -/
structure SwitchAccountResult where
  fromInfo : Option AccountInfo
  toInfo : AccountInfo
deriving Repr, DecidableEq

/-- Embedding of `getPreviousAccount`. -/
def getPreviousAccount (w : World) : Except String Account :=
  match histLoad w with
  | Except.error e => Except.error ("failed to load history: " ++ e)
  | Except.ok history =>
    match GetLastSwitch history with
    | none => Except.error "no previous account in history"
    | some lastSwitch => repoFindByEmail w lastSwitch.fromEmail

/-- Embedding of `findByIndex` (1-based). -/
def findByIndex (w : World) (index : Int) : Except String Account :=
  if index ≤ 0 then
    Except.error ("invalid index " ++ toString index ++ ": must be positive")
  else
    match repoList w with
    | Except.error e => Except.error ("failed to list accounts: " ++ e)
    | Except.ok accounts =>
      if index > (accounts.length : Int) then
        Except.error ("index " ++ toString index ++ " out of range (have " ++
          toString accounts.length ++ " accounts)")
      else
        match accounts.get? (index.toNat - 1) with
        | some a => Except.ok a
        | none => Except.error "unreachable: checked index"

/-- Embedding of `determineTargetAccount`: the previous flag must stand
alone; otherwise exactly one selector must be present (an `Index ≤ 0`
counts as absent). -/
def determineTargetAccount (w : World) (input : SwitchAccountInput) :
    Except String Account :=
  if input.previous then
    if input.accountID ≠ "" || input.email ≠ "" || input.aliasName ≠ "" ||
        input.index > 0 then
      Except.error "previous flag cannot be combined with other input methods"
    else getPreviousAccount w
  else
    let inputCount :=
      (if input.accountID ≠ "" then 1 else 0) +
      (if input.email ≠ "" then 1 else 0) +
      (if input.aliasName ≠ "" then 1 else 0) +
      (if input.index > 0 then 1 else 0)
    if inputCount = 0 then Except.error "no account identifier provided"
    else if inputCount > 1 then
      Except.error "multiple account identifiers provided; use only one"
    else if input.accountID ≠ "" then repoFindByID w input.accountID
    else if input.email ≠ "" then repoFindByEmail w input.email
    else if input.aliasName ≠ "" then repoFindByAlias w input.aliasName
    else if input.index > 0 then findByIndex w input.index
    else Except.error "internal error: invalid input state"

/-- Embedding of `saveToHistory`: a failed history load falls back to a
fresh `NewHistory 50`; the updated ledger replaces the stored one. -/
def saveToHistory (w : World) (fromE toE : String) (now : Nat) :
    Except String Unit × World :=
  let history :=
    match histLoad w with
    | Except.ok h => h
    | Except.error _ => NewHistory 50
  match NewSwitchEntry fromE toE now with
  | Except.error e => (Except.error ("failed to create switch entry: " ++ e), w)
  | Except.ok entry => histSave w (AddEntry history (some entry))

/-- Tail of the switch after the no-op check: verify credentials, write
the config, then best-effort history. -/
def switchApply (w : World) (currentAccount : Option Account)
    (targetAccount : Account) (now : Nat) :
    Except String SwitchAccountResult × World :=
  match credRetrieve w targetAccount.id with
  | Except.error e =>
    (Except.error ("failed to retrieve credentials for account " ++
      targetAccount.aliasName ++ ": " ++ e), w)
  | Except.ok _ =>
    match configSetCurrent w (some targetAccount) with
    | (Except.error e, w1) => (Except.error ("failed to set current account: " ++ e), w1)
    | (Except.ok _, w1) =>
      let w2 :=
        match currentAccount with
        | some cur => (saveToHistory w1 cur.email targetAccount.email now).2
        | none => w1
      (Except.ok ⟨currentAccount.map accountToInfo, accountToInfo targetAccount⟩, w2)

/-- Embedding of `(*SwitchAccountService).Execute`. -/
def switchExecute (cancelled : Bool) (now : Nat) (w : World)
    (input : SwitchAccountInput) : Except String SwitchAccountResult × World :=
  if cancelled then (Except.error "context cancelled: context canceled", w)
  else
    match configGetCurrent w with
    | Except.error e => (Except.error ("failed to get current account: " ++ e), w)
    | Except.ok currentAccount =>
      match determineTargetAccount w input with
      | Except.error e => (Except.error e, w)
      | Except.ok targetAccount =>
        match currentAccount with
        | some cur =>
          if cur.id = targetAccount.id then
            (Except.ok ⟨some (accountToInfo cur), accountToInfo cur⟩, w)
          else switchApply w (some cur) targetAccount now
        | none => switchApply w none targetAccount now

/-! ## Remove orchestrator (remove_account.go) -/

/-- Embedding of `usecases.RemoveAccountInput`. -/
structure RemoveAccountInput where
  accountID : String
deriving Repr, DecidableEq

/-- Embedding of `usecases.RemoveAccountResult`. -/
structure RemoveAccountResult where
  removedAccount : AccountInfo
  wasCurrentAccount : Bool
  wasLastAccount : Bool
deriving Repr, DecidableEq

/-- Embedding of `removalMetadata`. -/
structure RemovalMetadata where
  accountInfo : AccountInfo
  isCurrentAccount : Bool
  isLastAccount : Bool
  backupCredentials : Option Credentials
deriving Repr, DecidableEq

/-- Embedding of `validateInput`: the empty-id check precedes the
context-cancellation check; `some msg` is the returned error. -/
def removeValidateInput (cancelled : Bool) (input : RemoveAccountInput) :
    Option String :=
  if input.accountID = "" then some "account ID is required"
  else if cancelled then some "context canceled"
  else none

/-- Embedding of `getRemovalMetadata`: the config read's error is
discarded (a failed read counts as "no current account"); the credential
backup is best-effort. -/
def getRemovalMetadata (w : World) (account : Account) :
    Except String RemovalMetadata :=
  let currentAccount :=
    match configGetCurrent w with
    | Except.ok c => c
    | Except.error _ => none
  let isCurrentAccount :=
    match currentAccount with
    | some c => c.id = account.id
    | none => false
  match repoList w with
  | Except.error e => Except.error ("failed to check account count: " ++ e)
  | Except.ok allAccounts =>
    let backupCredentials :=
      match credRetrieve w account.id with
      | Except.ok c => some c
      | Except.error _ => none
    Except.ok ⟨accountToInfo account, isCurrentAccount,
      allAccounts.length = 1, backupCredentials⟩

/-- Embedding of `rollbackCredentials` (best-effort restore, errors
discarded). -/
def rollbackCredentials (w : World) (backupCredentials : Option Credentials) :
    World :=
  match backupCredentials with
  | some c => (credStore w c).2
  | none => w

/-- Embedding of `rollbackFull` (best-effort restore of account then
credentials). -/
def rollbackFull (w : World) (account : Account)
    (backupCredentials : Option Credentials) : World :=
  rollbackCredentials (repoSave w account).2 backupCredentials

/-- Embedding of `updateHistory` (best-effort re-save of the loaded
ledger, errors discarded). -/
def updateHistory (w : World) : World :=
  match histLoad w with
  | Except.ok h => (histSave w h).2
  | Except.error _ => w

/-- Embedding of `performRemoval`: credentials first, then the account
record (restoring credentials on failure), then the config clear
(restoring both on failure) and best-effort history. -/
def performRemoval (w : World) (account : Account) (md : RemovalMetadata) :
    Except String Unit × World :=
  match credDelete w account.id with
  | (Except.error e, w1) => (Except.error ("failed to delete credentials: " ++ e), w1)
  | (Except.ok _, w1) =>
    match repoDelete w1 account.id with
    | (Except.error e, w2) =>
      ((Except.error ("failed to delete account: " ++ e) : Except String Unit),
        rollbackCredentials w2 md.backupCredentials)
    | (Except.ok _, w2) =>
      if md.isCurrentAccount then
        match configSetCurrent w2 none with
        | (Except.error e, w3) =>
          ((Except.error ("failed to clear current account configuration: " ++ e) :
              Except String Unit),
            rollbackFull w3 account md.backupCredentials)
        | (Except.ok _, w3) => (Except.ok (), updateHistory w3)
      else (Except.ok (), w2)

/-- Embedding of `(*RemoveAccountService).Execute`. -/
def removeExecute (cancelled : Bool) (w : World) (input : RemoveAccountInput) :
    Except String RemoveAccountResult × World :=
  match removeValidateInput cancelled input with
  | some e => (Except.error e, w)
  | none =>
    match repoFindByID w input.accountID with
    | Except.error e => (Except.error ("failed to find account: " ++ e), w)
    | Except.ok account =>
      match getRemovalMetadata w account with
      | Except.error e => (Except.error e, w)
      | Except.ok md =>
        match performRemoval w account md with
        | (Except.error e, w1) => (Except.error e, w1)
        | (Except.ok _, w1) =>
          (Except.ok ⟨md.accountInfo, md.isCurrentAccount, md.isLastAccount⟩, w1)

/-! ## Concrete sample data, used by witnesses and counterexamples -/

/-- Toy block cipher used to instantiate the abstract AES parameter. -/
def sampleE : BlockCipher := fun _ _ => List.replicate 16 0

/-- Toy 32-byte key derivation (AES-256-sized, like SHA-256 output). -/
def sampleKdf : Kdf := fun _ => List.replicate 32 0

/-- Fixed 12-byte nonce standing in for the random GCM nonce. -/
def sampleNonce : List Nat := List.replicate 12 0

def acctPersonal : Account :=
  ⟨"id1", "personal@example.com", "personal", "uuid-personal", 0, 0⟩

def acctWork : Account :=
  ⟨"id2", "work@example.com", "work", "uuid-work", 0, 0⟩

def acctTest : Account :=
  ⟨"id3", "test@example.com", "test", "uuid-test", 0, 0⟩

/-- Credentials for `acctWork` under the sample cipher. -/
def credsWork : Credentials :=
  ⟨"id2", gcmSeal sampleE (sampleKdf "id2") sampleNonce [9, 9], sampleKdf "id2"⟩

/-- Baseline world mirroring `setupSwitchAccountTest`: three accounts,
`personal` current, no error injected. -/
def sampleWorld : World where
  accounts := [acctPersonal, acctWork, acctTest]
  accSaveErr := false
  accFindErr := false
  accDeleteErr := false
  creds := [("id2", credsWork)]
  credStoreErr := false
  credRetrieveErr := false
  credDeleteErr := false
  current := some acctPersonal
  configGetErr := false
  configSetErr := false
  storedHistory := NewHistory 10
  histLoadErr := false
  histSaveErr := false
  histSaveCalls := 0

/-- Empty world with no accounts, no credentials, no current account. -/
def emptyWorld : World where
  accounts := []
  accSaveErr := false
  accFindErr := false
  accDeleteErr := false
  creds := []
  credStoreErr := false
  credRetrieveErr := false
  credDeleteErr := false
  current := none
  configGetErr := false
  configSetErr := false
  storedHistory := NewHistory 10
  histLoadErr := false
  histSaveErr := false
  histSaveCalls := 0

/-! ## Helper lemmas -/

theorem take_append_take {α : Type} (m : Nat) (l l' : List α) :
    (l ++ l'.take m).take m = (l ++ l').take m := by
  rw [List.take_append_eq_append_take, List.take_append_eq_append_take,
    List.take_take, Nat.min_def]
  split
  · rfl
  · omega

/-- AddEntry with a present entry is prepend-then-truncate. -/
theorem addEntry_some_eq (h : History) (e : SwitchEntry) :
    AddEntry h (some e) = ⟨(e :: h.entries).take h.maxEntries, h.maxEntries⟩ := by
  by_cases hl : (e :: h.entries).length > h.maxEntries
  · simp only [AddEntry]
    rw [if_pos hl]
  · simp only [AddEntry]
    rw [if_neg hl, List.take_of_length_le (Nat.le_of_not_lt hl)]

/-- Folding AddEntry over a list of present entries keeps the newest
`maxEntries` entries, newest first. -/
theorem foldl_addEntry (es : List SwitchEntry) (h : History)
    (hinv : h.entries.length ≤ h.maxEntries) :
    es.foldl (fun h e => AddEntry h (some e)) h =
      ⟨(es.reverse ++ h.entries).take h.maxEntries, h.maxEntries⟩ := by
  induction es generalizing h with
  | nil =>
    cases h with
    | mk entries maxEntries =>
      simp only [List.foldl_nil, List.reverse_nil, List.nil_append]
      rw [List.take_of_length_le hinv]
  | cons e rest ih =>
    rw [List.foldl_cons, addEntry_some_eq,
      ih ⟨(e :: h.entries).take h.maxEntries, h.maxEntries⟩
        (List.length_take_le _ _)]
    simp only [List.reverse_cons, List.append_assoc, List.singleton_append]
    rw [take_append_take]

/-- Lookup by a key never finds an element of a list filtered to exclude
that key. -/
theorem find_key_filter_ne (l : List (String × Credentials)) (id : String) :
    (l.filter (fun p => p.1 ≠ id)).find? (fun p => p.1 = id) = none := by
  rw [List.find?_eq_none]
  intro x hx
  have h2 := (List.mem_filter.mp hx).2
  simp only [ne_eq, decide_not, Bool.not_eq_true', decide_eq_false_iff_not] at h2
  simp [h2]

/-- Deleting a key from the credential map makes its lookup fail. -/
theorem lookupCred_filter_self (l : List (String × Credentials)) (id : String) :
    lookupCred (l.filter (fun p => p.1 ≠ id)) id = none := by
  unfold lookupCred
  rw [find_key_filter_ne]
  rfl

/-- Re-storing credentials under a key just deleted makes its lookup
return them. -/
theorem lookupCred_filter_upsert (l : List (String × Credentials))
    (id : String) (c : Credentials) :
    lookupCred (upsertCred (l.filter (fun p => p.1 ≠ id)) id c) id = some c := by
  have hany : (l.filter (fun p => p.1 ≠ id)).any (fun p => p.1 = id) = false := by
    rw [Bool.eq_false_iff]
    intro hx
    obtain ⟨x, hmem, hkey⟩ := List.any_eq_true.mp hx
    have h2 := (List.mem_filter.mp hmem).2
    simp only [ne_eq, decide_not, Bool.not_eq_true', decide_eq_false_iff_not] at h2
    simp [h2] at hkey
  unfold upsertCred lookupCred
  rw [hany]
  simp only [Bool.false_eq_true, if_false, ite_false]
  rw [List.find?_append, find_key_filter_ne]
  simp [List.find?]

/-- Length of the keystream under a well-formed 16-byte block cipher. -/
theorem ksFrom_length (E : BlockCipher) (key nonce : List Nat)
    (hE : ∀ k b, (E k b).length = 16) :
    ∀ n i, (ksFrom E key nonce i n).length = 16 * n := by
  intro n
  induction n with
  | zero => intro i; rfl
  | succ n ih =>
    intro i
    simp only [ksFrom, List.length_append, hE, ih]
    omega

/-- Enough keystream is generated to cover the payload. -/
theorem le_mul_blocksFor (len : Nat) : len ≤ 16 * blocksFor len := by
  unfold blocksFor
  have h1 := Nat.div_add_mod (len + 15) 16
  have h2 : (len + 15) % 16 < 16 := Nat.mod_lt _ (by norm_num)
  omega

/-- XORing twice with the same keystream is the identity. -/
theorem zipWith_xor_cancel (p : List Nat) :
    ∀ ks : List Nat, p.length ≤ ks.length →
      List.zipWith Nat.xor (List.zipWith Nat.xor p ks) ks = p := by
  induction p with
  | nil => intro ks h; rfl
  | cons a p ih =>
    intro ks h
    cases ks with
    | nil => simp at h
    | cons b ks =>
      simp only [List.zipWith_cons_cons]
      have hx : Nat.xor (Nat.xor a b) b = a := Nat.xor_cancel_right b a
      rw [hx, ih ks (by simpa using h)]

/-- Length of the GCM authentication tag under a well-formed block
cipher. -/
theorem gcmTag_length (E : BlockCipher) (key nonce c : List Nat)
    (hE : ∀ k b, (E k b).length = 16) :
    (gcmTag E key nonce c).length = 16 := by
  unfold gcmTag natToBytes16
  rw [List.length_zipWith, List.length_map, List.length_range, hE]
  omega

/-! ## Claim theorems -/

/-- C6: for every capacity and every sequence of non-null insertions the
ledger holds at most `maxEntries` entries, each insertion prepends and
truncates the tail, and after at least `maxEntries` insertions the ledger
holds exactly the `maxEntries` most recent entries, newest first. -/
theorem history_bound_newest_first (maxEntries : Int) (es : List SwitchEntry) :
    (es.foldl (fun h e => AddEntry h (some e)) (NewHistory maxEntries)).entries =
      es.reverse.take (NewHistory maxEntries).maxEntries ∧
    (es.foldl (fun h e => AddEntry h (some e)) (NewHistory maxEntries)).entries.length ≤
      (NewHistory maxEntries).maxEntries ∧
    ((NewHistory maxEntries).maxEntries ≤ es.length →
      (es.foldl (fun h e => AddEntry h (some e)) (NewHistory maxEntries)).entries.length =
        (NewHistory maxEntries).maxEntries) := by
  have hent : (NewHistory maxEntries).entries = [] := by
    unfold NewHistory; split <;> rfl
  have hfold := foldl_addEntry es (NewHistory maxEntries) (by rw [hent]; simp)
  rw [hfold]
  refine ⟨by rw [hent, List.append_nil], ?_, ?_⟩
  · simp only [List.length_take]
    omega
  · intro hle
    simp only [List.length_take, List.length_append, List.length_reverse, hent]
    simp only [List.length_nil]
    omega

/-- C6 witness: three insertions into a capacity-2 ledger keep the two
most recent, newest first. -/
theorem history_bound_newest_first_witness :
    ([⟨"a", "b", 1⟩, ⟨"b", "c", 2⟩, ⟨"c", "d", 3⟩].foldl
        (fun h e => AddEntry h (some e)) (NewHistory 2)).entries =
      ([⟨"a", "b", 1⟩, ⟨"b", "c", 2⟩, (⟨"c", "d", 3⟩ : SwitchEntry)] :
        List SwitchEntry).reverse.take (NewHistory 2).maxEntries ∧
    (NewHistory 2).maxEntries ≤ 3 ∧
    ([⟨"a", "b", 1⟩, ⟨"b", "c", 2⟩, ⟨"c", "d", 3⟩].foldl
        (fun h e => AddEntry h (some e)) (NewHistory 2)).entries.length =
      (NewHistory 2).maxEntries := by
  refine ⟨(history_bound_newest_first 2 _).1, by decide, ?_⟩
  exact (history_bound_newest_first 2
    [⟨"a", "b", 1⟩, ⟨"b", "c", 2⟩, ⟨"c", "d", 3⟩]).2.2 (by decide)

/-- C10: the duplicate-account error is returned exactly when the
`FindByEmail` lookup succeeds; every lookup error — including an injected
repository I/O failure — is treated as "account does not exist" and lets
the add proceed. -/
theorem duplicate_check_iff_lookup_succeeds (w : World) (email : String) :
    ((∃ msg, checkAccountExists w email = some msg) ↔
      (∃ a, repoFindByEmail w email = Except.ok a)) ∧
    (w.accFindErr = true → checkAccountExists w email = none) := by
  constructor
  · unfold checkAccountExists
    cases h : repoFindByEmail w email with
    | ok a => simp
    | error e => simp
  · intro hfe
    unfold checkAccountExists repoFindByEmail
    rw [hfe]
    simp

/-- C10 witness: with an injected find error and a matching stored
account, the duplicate check still reports "does not exist". -/
theorem duplicate_check_iff_lookup_succeeds_witness :
    checkAccountExists { sampleWorld with accFindErr := true }
      "personal@example.com" = none :=
  (duplicate_check_iff_lookup_succeeds
    { sampleWorld with accFindErr := true } "personal@example.com").2 rfl

/-- C9: when loading the persisted history fails, the switch history
writer creates a fresh ledger with capacity 50 (not the `NewHistory`
default of 10), adds the single entry, and saves it, replacing whatever
ledger was stored before. -/
theorem save_history_load_failure_fallback (w : World) (fromE toE : String)
    (now : Nat)
    (hload : w.histLoadErr = true) (hsave : w.histSaveErr = false)
    (hfrom : fromE ≠ "") (hto : toE ≠ "") (hne : fromE ≠ toE) :
    saveToHistory w fromE toE now =
      (Except.ok (), { w with
        storedHistory := ⟨[⟨fromE, toE, now⟩], 50⟩,
        histSaveCalls := w.histSaveCalls + 1 }) := by
  unfold saveToHistory histLoad NewSwitchEntry histSave
  rw [hload]
  simp only [if_true, hfrom, hto, hne, if_neg, ite_false]
  have : AddEntry (NewHistory 50) (some ⟨fromE, toE, now⟩) =
      ⟨[⟨fromE, toE, now⟩], 50⟩ := by
    unfold NewHistory
    rw [addEntry_some_eq]
    norm_num
    rfl
  rw [this]
  simp [hsave]

/-- C9 witness: a concrete failed load leads to a saved 50-capacity
single-entry ledger. -/
theorem save_history_load_failure_fallback_witness :
    saveToHistory { sampleWorld with histLoadErr := true }
        "personal@example.com" "work@example.com" 7 =
      (Except.ok (), { { sampleWorld with histLoadErr := true } with
        storedHistory := ⟨[⟨"personal@example.com", "work@example.com", 7⟩], 50⟩,
        histSaveCalls := sampleWorld.histSaveCalls + 1 }) :=
  save_history_load_failure_fallback { sampleWorld with histLoadErr := true }
    "personal@example.com" "work@example.com" 7 rfl rfl
    (by decide) (by decide) (by decide)

/-- C3: a switch whose resolved target has the id of the current account
is a no-op: it succeeds with `from = to` and leaves the whole world —
config, history ledger and history save counter included — unchanged. -/
theorem noop_switch_same_account (w : World) (input : SwitchAccountInput)
    (now : Nat) (cur target : Account)
    (hget : w.configGetErr = false)
    (hcur : w.current = some cur)
    (hdet : determineTargetAccount w input = Except.ok target)
    (hid : cur.id = target.id) :
    switchExecute false now w input =
      (Except.ok ⟨some (accountToInfo cur), accountToInfo cur⟩, w) ∧
    (switchExecute false now w input).2.histSaveCalls = w.histSaveCalls ∧
    (switchExecute false now w input).2.current = w.current := by
  have hmain : switchExecute false now w input =
      (Except.ok ⟨some (accountToInfo cur), accountToInfo cur⟩, w) := by
    unfold switchExecute configGetCurrent
    rw [hget, hdet]
    simp only [Bool.false_eq_true, if_false, if_neg, hcur, hid, if_pos]
  exact ⟨hmain, by rw [hmain], by rw [hmain]⟩

/-- C3 witness: switching by id to the already-current account is a
no-op on a concrete world. -/
theorem noop_switch_same_account_witness :
    switchExecute false 0 sampleWorld ⟨"id1", "", "", 0, false⟩ =
      (Except.ok ⟨some (accountToInfo acctPersonal), accountToInfo acctPersonal⟩,
        sampleWorld) ∧
    (switchExecute false 0 sampleWorld ⟨"id1", "", "", 0, false⟩).2.histSaveCalls =
      sampleWorld.histSaveCalls ∧
    (switchExecute false 0 sampleWorld ⟨"id1", "", "", 0, false⟩).2.current =
      sampleWorld.current :=
  noop_switch_same_account sampleWorld ⟨"id1", "", "", 0, false⟩ 0
    acctPersonal acctPersonal rfl rfl rfl rfl

/-- C4: after the target is resolved and differs from the current
account, a failing credential retrieval or a failing config write makes
the switch return an error with the world — config current account and
history save counter included — left exactly as it was. -/
theorem switch_failure_leaves_world_unchanged (w : World)
    (input : SwitchAccountInput) (now : Nat) (target : Account)
    (hget : w.configGetErr = false)
    (hdet : determineTargetAccount w input = Except.ok target)
    (hnoop : ∀ cur, w.current = some cur → cur.id ≠ target.id) :
    ((credRetrieve w target.id).isOk = false →
      ∃ msg, switchExecute false now w input = (Except.error msg, w)) ∧
    ((credRetrieve w target.id).isOk = true → w.configSetErr = true →
      ∃ msg, switchExecute false now w input = (Except.error msg, w)) := by
  have happly : switchExecute false now w input = switchApply w w.current target now := by
    unfold switchExecute configGetCurrent
    rw [hget, hdet]
    cases hc : w.current with
    | none => simp
    | some cur =>
      have := hnoop cur hc
      simp only [Bool.false_eq_true, if_false, if_neg, this, ite_false]
  constructor
  · intro hretr
    rw [happly]
    unfold switchApply
    cases hr : credRetrieve w target.id with
    | error e => exact ⟨_, rfl⟩
    | ok c => rw [hr] at hretr; simp [Except.isOk, Except.toBool] at hretr
  · intro hretr hset
    rw [happly]
    unfold switchApply
    cases hr : credRetrieve w target.id with
    | error e => rw [hr] at hretr; simp [Except.isOk, Except.toBool] at hretr
    | ok c =>
      unfold configSetCurrent
      rw [hset]
      exact ⟨_, rfl⟩

/-- C4 witness: retrieving credentials for an account that has none makes
a concrete switch fail and leave the world unchanged. -/
theorem switch_failure_leaves_world_unchanged_witness :
    (credRetrieve sampleWorld "id3").isOk = false ∧
    ∃ msg, switchExecute false 0 sampleWorld ⟨"id3", "", "", 0, false⟩ =
      (Except.error msg, sampleWorld) :=
  ⟨rfl,
    (switch_failure_leaves_world_unchanged sampleWorld ⟨"id3", "", "", 0, false⟩
      0 acctTest rfl rfl (by decide)).1 rfl⟩

/-- C8 counterexample: a position selector of 0 does not fail with the
index-out-of-range error of `findByIndex`; it is treated as "no selector
provided" and fails with that error instead (still mutating nothing). -/
theorem index_below_one_not_out_of_range_cex :
    switchExecute false 0 sampleWorld ⟨"", "", "", 0, false⟩ =
      (Except.error "no account identifier provided", sampleWorld) ∧
    (switchExecute false 0 sampleWorld ⟨"", "", "", 0, false⟩).1 ≠
      Except.error "invalid index 0: must be positive" ∧
    (switchExecute false 0 sampleWorld ⟨"", "", "", 0, false⟩).1 ≠
      Except.error "index 0 out of range (have 3 accounts)" := by
  refine ⟨rfl, ?_, ?_⟩ <;>
    · intro h
      rw [show (switchExecute false 0 sampleWorld ⟨"", "", "", 0, false⟩).1 =
          Except.error "no account identifier provided" from rfl] at h
      exact absurd (Except.error.inj h) (by decide)

/-- C8 (amended): a position selector beyond the listing length fails
with the index-out-of-range error and mutates nothing; a position below 1
is treated as "selector absent" and fails with the no-selector error,
also mutating nothing. -/
theorem index_selector_failures (w : World) (i : Int) (now : Nat)
    (hget : w.configGetErr = false) (hfind : w.accFindErr = false) :
    (i ≤ 0 →
      switchExecute false now w ⟨"", "", "", i, false⟩ =
        (Except.error "no account identifier provided", w)) ∧
    ((w.accounts.length : Int) < i →
      switchExecute false now w ⟨"", "", "", i, false⟩ =
        (Except.error ("index " ++ toString i ++ " out of range (have " ++
          toString w.accounts.length ++ " accounts)"), w)) := by
  constructor
  · intro hi
    unfold switchExecute configGetCurrent determineTargetAccount
    rw [hget]
    have hnotpos : ¬ (0 : Int) < i := by omega
    simp only [Bool.false_eq_true, if_false, ite_false, String.reduceEq,
      not_false_eq_true, if_neg, hnotpos, if_true]
    cases w.current <;> simp
  · intro hi
    have hpos : (0 : Int) < i := by
      have : (0 : Int) ≤ w.accounts.length := Int.natCast_nonneg _
      omega
    unfold switchExecute configGetCurrent determineTargetAccount findByIndex repoList
    rw [hget, hfind]
    have hnotle : ¬ i ≤ 0 := by omega
    simp only [Bool.false_eq_true, if_false, ite_false, String.reduceEq,
      not_false_eq_true, hpos, if_pos, if_true, hnotle, hi]
    cases w.current <;> simp [hi, hnotle]

/-- C5: sealing a non-empty payload for a non-empty account id via
`NewCredentials` and then opening via `Decrypt` returns exactly the
payload, for every well-formed 16-byte block cipher, every key derivation
producing a valid AES key size, and every 12-byte nonce. -/
theorem credentials_round_trip (E : BlockCipher) (kdf : Kdf) (id : String)
    (data nonce : List Nat)
    (hE : ∀ k b, (E k b).length = 16)
    (hkey : aesKeySizeOk (kdf id) = true)
    (hid : id ≠ "") (hdata : data ≠ []) (hnonce : nonce.length = 12) :
    Except.bind (NewCredentials E kdf id data nonce)
      (fun c => CredentialsDecrypt E c) = Except.ok data := by
  have hlen0 : ¬ data.length = 0 := fun h => hdata (List.length_eq_zero.mp h)
  set key := kdf id with hkeydef
  set ks := gcmKeystream E key nonce (blocksFor data.length) with hks
  have hksl : ks.length = 16 * blocksFor data.length := by
    rw [hks]
    unfold gcmKeystream
    exact ksFrom_length E key nonce hE _ 2
  have hdle : data.length ≤ ks.length := by
    rw [hksl]
    exact le_mul_blocksFor _
  set c := List.zipWith Nat.xor data ks with hcdef
  have hcl : c.length = data.length := by
    rw [hcdef, List.length_zipWith]
    omega
  set tag := gcmTag E key nonce c with htag
  have htagl : tag.length = 16 := by
    rw [htag]
    exact gcmTag_length E key nonce c hE
  have hseal : gcmSeal E key nonce data = nonce ++ (c ++ tag) := by
    unfold gcmSeal
    rw [List.append_assoc, ← hks, ← hcdef, ← htag]
  have hnew : NewCredentials E kdf id data nonce =
      Except.ok ⟨id, gcmSeal E key nonce data, key⟩ := by
    unfold NewCredentials encrypt
    simp [hid, hlen0, ← hkeydef, hkey]
  rw [hnew]
  show CredentialsDecrypt E ⟨id, gcmSeal E key nonce data, key⟩ = Except.ok data
  unfold CredentialsDecrypt decrypt
  simp only
  rw [hseal, hkey]
  have hlentot : (nonce ++ (c ++ tag)).length = 12 + (c.length + 16) := by
    simp [hnonce, htagl]
  have hnotshort : ¬ (nonce ++ (c ++ tag)).length < 12 := by omega
  rw [if_neg hnotshort]
  rw [List.take_left' hnonce, List.drop_left' hnonce]
  unfold gcmOpen
  have hrl : (c ++ tag).length = c.length + 16 := by
    rw [List.length_append, htagl]
  have hnotshort2 : ¬ (c ++ tag).length < 16 := by omega
  rw [if_neg hnotshort2]
  have harith : (c ++ tag).length - 16 = c.length := by omega
  rw [harith, List.take_left, List.drop_left]
  simp only [Bool.not_true, Bool.false_eq_true, if_false, ite_false]
  rw [if_pos trivial, hcl, ← hks, hcdef]
  rw [zipWith_xor_cancel data ks hdle]

/-- C5 witness: a concrete seal-then-open round trip under the sample
cipher, key derivation and nonce recovers the payload. -/
theorem credentials_round_trip_witness :
    (∀ k b, (sampleE k b).length = 16) ∧
    aesKeySizeOk (sampleKdf "id1") = true ∧
    ("id1" : String) ≠ "" ∧ ([1, 2, 3] : List Nat) ≠ [] ∧
    Except.bind (NewCredentials sampleE sampleKdf "id1" [1, 2, 3] sampleNonce)
      (fun c => CredentialsDecrypt sampleE c) = Except.ok [1, 2, 3] :=
  ⟨fun k b => by simp [sampleE], rfl, by decide, by decide,
    credentials_round_trip sampleE sampleKdf "id1" [1, 2, 3] sampleNonce
      (fun k b => by simp [sampleE]) rfl (by decide) (by decide) rfl⟩

/-- C1: when the credential store succeeded and the subsequent account
save fails, Add deletes the just-stored credentials before returning the
save error; afterwards the credential store holds nothing for the new
account's id and the account repository is unchanged. -/
theorem add_save_failure_compensation
    (E : BlockCipher) (kdf : Kdf) (nonce : List Nat) (genId : String)
    (now : Nat) (c : Bool) (w : World) (input : AddAccountInput)
    (email uuid : String) (data : List Nat) (account : Account)
    (creds : Credentials)
    (hdet : determineAccountDetails w input = Except.ok (email, uuid, data))
    (hchk : checkAccountExists w email = none)
    (hacc : NewAccount email (generateAlias input.aliasName email) uuid genId
      now = Except.ok account)
    (hcred : NewCredentials E kdf account.id data nonce = Except.ok creds)
    (hstore : w.credStoreErr = false)
    (hsave : w.accSaveErr = true)
    (hdel : w.credDeleteErr = false) :
    (addExecute E kdf nonce genId now c w input).1 =
      Except.error "failed to save account: save error" ∧
    lookupCred (addExecute E kdf nonce genId now c w input).2.creds
      account.id = none ∧
    (addExecute E kdf nonce genId now c w input).2.accounts = w.accounts := by
  have hrun : addExecute E kdf nonce genId now c w input =
      (Except.error "failed to save account: save error",
        { w with
          creds := List.filter (fun p => p.1 ≠ account.id)
            (upsertCred w.creds creds.accountID creds) }) := by
    unfold addExecute createAndSaveAccount credStore repoSave credDelete
    rw [hdet]
    simp only [hchk, hacc, hcred, hstore, hsave, hdel, Bool.false_eq_true,
      if_false, if_true, ite_false, ite_true]
    rfl
  rw [hrun]
  exact ⟨rfl, lookupCred_filter_self _ _, rfl⟩

/-- C1 witness: a concrete explicit add against a failing account
repository deletes the freshly stored credentials and leaves the account
list unchanged. -/
theorem add_save_failure_compensation_witness :
    determineAccountDetails { emptyWorld with accSaveErr := true }
        ⟨"a@example.com", "work", [1, 2]⟩ =
      Except.ok ("a@example.com", "explicit-a-example.com", [1, 2]) ∧
    (addExecute sampleE sampleKdf sampleNonce "abcd1234" 0 false
        { emptyWorld with accSaveErr := true }
        ⟨"a@example.com", "work", [1, 2]⟩).1 =
      Except.error "failed to save account: save error" ∧
    lookupCred (addExecute sampleE sampleKdf sampleNonce "abcd1234" 0 false
        { emptyWorld with accSaveErr := true }
        ⟨"a@example.com", "work", [1, 2]⟩).2.creds "abcd1234" = none ∧
    (addExecute sampleE sampleKdf sampleNonce "abcd1234" 0 false
        { emptyWorld with accSaveErr := true }
        ⟨"a@example.com", "work", [1, 2]⟩).2.accounts =
      ({ emptyWorld with accSaveErr := true } : World).accounts := by
  refine ⟨rfl, ?_⟩
  exact add_save_failure_compensation sampleE sampleKdf sampleNonce "abcd1234"
    0 false { emptyWorld with accSaveErr := true }
    ⟨"a@example.com", "work", [1, 2]⟩ "a@example.com"
    "explicit-a-example.com" [1, 2]
    ⟨"abcd1234", "a@example.com", "work", "explicit-a-example.com", 0, 0⟩
    ⟨"abcd1234", gcmSeal sampleE (sampleKdf "abcd1234") sampleNonce [1, 2],
      sampleKdf "abcd1234"⟩
    rfl rfl rfl rfl rfl rfl rfl

/-- C2: when credential deletion succeeded and the account-record
deletion fails, Remove restores the backed-up credentials and returns an
error; afterwards the account is still findable by id and its credentials
are retrievable. -/
theorem remove_delete_failure_rollback (w : World) (id : String)
    (account : Account) (creds : Credentials)
    (hid : id ≠ "")
    (hfind : w.accFindErr = false)
    (hacct : w.accounts.find? (fun a => a.id = id) = some account)
    (hcred : lookupCred w.creds id = some creds)
    (hkey : creds.accountID = id)
    (hretr : w.credRetrieveErr = false)
    (hcdel : w.credDeleteErr = false)
    (hadel : w.accDeleteErr = true)
    (hcstore : w.credStoreErr = false) :
    (∃ msg, (removeExecute false w ⟨id⟩).1 = Except.error msg) ∧
    repoFindByID (removeExecute false w ⟨id⟩).2 id = Except.ok account ∧
    credRetrieve (removeExecute false w ⟨id⟩).2 id = Except.ok creds := by
  have haid : account.id = id := by
    have := List.find?_some hacct
    simpa using this
  have hrun : removeExecute false w ⟨id⟩ =
      (Except.error "failed to delete account: delete error",
        { w with
          creds := upsertCred (List.filter (fun p => p.1 ≠ id) w.creds) id
            creds }) := by
    unfold removeExecute removeValidateInput repoFindByID getRemovalMetadata
      repoList performRemoval credDelete repoDelete rollbackCredentials
      credStore credRetrieve
    simp only [hid, hfind, hacct, haid, hcred, hkey, hretr, hcdel, hadel,
      hcstore, Bool.false_eq_true, if_false, if_true, ite_false, ite_true,
      if_neg, not_false_eq_true]
    rfl
  rw [hrun]
  refine ⟨⟨_, rfl⟩, ?_, ?_⟩
  · unfold repoFindByID
    rw [hfind, hacct]
    rfl
  · unfold credRetrieve
    rw [hretr]
    simp only [Bool.false_eq_true, if_false, ite_false,
      lookupCred_filter_upsert]

/-- C2 witness: against a failing account delete, a concrete remove
leaves the work account findable and its credentials retrievable. -/
theorem remove_delete_failure_rollback_witness :
    (∃ msg, (removeExecute false { sampleWorld with accDeleteErr := true }
      ⟨"id2"⟩).1 = Except.error msg) ∧
    repoFindByID (removeExecute false { sampleWorld with accDeleteErr := true }
      ⟨"id2"⟩).2 "id2" = Except.ok acctWork ∧
    credRetrieve (removeExecute false { sampleWorld with accDeleteErr := true }
      ⟨"id2"⟩).2 "id2" = Except.ok credsWork :=
  remove_delete_failure_rollback { sampleWorld with accDeleteErr := true }
    "id2" acctWork credsWork (by decide) rfl rfl rfl rfl rfl rfl rfl rfl

/-- C7 counterexample: Add invoked with an already-cancelled context does
not return a cancelled error and does not avoid store writes — it runs to
completion, storing credentials and saving the account. -/
theorem add_ignores_cancellation_cex :
    (addExecute sampleE sampleKdf sampleNonce "abcd1234" 0 true emptyWorld
      ⟨"a@example.com", "work", [1, 2]⟩).1 = Except.ok () ∧
    (addExecute sampleE sampleKdf sampleNonce "abcd1234" 0 true emptyWorld
      ⟨"a@example.com", "work", [1, 2]⟩).2.accounts ≠ [] ∧
    (addExecute sampleE sampleKdf sampleNonce "abcd1234" 0 true emptyWorld
      ⟨"a@example.com", "work", [1, 2]⟩).2.creds ≠ [] := by
  refine ⟨rfl, ?_, ?_⟩ <;>
    · intro h
      rw [show (addExecute sampleE sampleKdf sampleNonce "abcd1234" 0 true
          emptyWorld ⟨"a@example.com", "work", [1, 2]⟩).2 =
          { emptyWorld with
            accounts := [⟨"abcd1234", "a@example.com", "work",
              "explicit-a-example.com", 0, 0⟩],
            creds := [("abcd1234",
              ⟨"abcd1234",
                gcmSeal sampleE (sampleKdf "abcd1234") sampleNonce [1, 2],
                sampleKdf "abcd1234"⟩)] } from rfl] at h
      exact absurd h (by simp)

/-- C7 (amended): Switch and Remove check caller-side cancellation before
any store access and return a cancelled error with no writes; Add never
checks cancellation, behaving identically on cancelled and live
contexts. -/
theorem cancellation_checks :
    (∀ (w : World) (input : SwitchAccountInput) (now : Nat),
      switchExecute true now w input =
        (Except.error "context cancelled: context canceled", w)) ∧
    (∀ (w : World) (input : RemoveAccountInput), input.accountID ≠ "" →
      removeExecute true w input = (Except.error "context canceled", w)) ∧
    (∀ (E : BlockCipher) (kdf : Kdf) (nonce : List Nat) (genId : String)
        (now : Nat) (w : World) (input : AddAccountInput),
      addExecute E kdf nonce genId now true w input =
        addExecute E kdf nonce genId now false w input) := by
  refine ⟨fun w input now => rfl, fun w input h => ?_, fun _ _ _ _ _ _ _ => rfl⟩
  unfold removeExecute removeValidateInput
  simp [h]

/-- C7 (amended) witness: a concrete cancelled Remove with a non-empty id
returns the cancellation error and leaves the world untouched. -/
theorem cancellation_checks_witness :
    ("id2" : String) ≠ "" ∧
    removeExecute true sampleWorld ⟨"id2"⟩ =
      (Except.error "context canceled", sampleWorld) :=
  ⟨by decide, cancellation_checks.2.1 sampleWorld ⟨"id2"⟩ (by decide)⟩

/-- C8 (amended) witness: position 100 against three accounts fails with
the out-of-range error; position 0 fails with the no-selector error. -/
theorem index_selector_failures_witness :
    ((3 : Int) < 100 ∧
      switchExecute false 0 sampleWorld ⟨"", "", "", 100, false⟩ =
        (Except.error "index 100 out of range (have 3 accounts)", sampleWorld)) ∧
    ((0 : Int) ≤ 0 ∧
      switchExecute false 0 sampleWorld ⟨"", "", "", 0, false⟩ =
        (Except.error "no account identifier provided", sampleWorld)) :=
  ⟨⟨by decide,
      (index_selector_failures sampleWorld 100 0 rfl rfl).2 (by decide)⟩,
    ⟨by decide,
      (index_selector_failures sampleWorld 0 0 rfl rfl).1 (by decide)⟩⟩

end Ccx
